import Mathlib

/-!
Shallow embedding of the terraform-provider-circleci repository's API client
and resource CRUD operations, together with theorems about the behaviour the
specification ascribes to them.

Modelling conventions:
* machine integers are `Nat`/`Int`;
* an HTTP response that actually arrived is an `HTTPResponse`; transport-level
  failures are outside the scope of the properties proved here, so server
  interaction is modelled as a total function from requests to responses;
* JSON (de)serialisation is modelled by explicit decoder parameters
  (`String → Option α` for `json.Unmarshal`, `String → Except String α` for
  decoders whose error message is surfaced);
* Terraform's `types.String` / `types.Int64` (null or value; the unknown state
  plays no role in the claims) are modelled as `Option String` / `Option Int`,
  with `ValueString`/`ValueInt64` returning the zero value on null;
* a CRUD handler's observable behaviour is the list of HTTP requests it issues
  plus its outcome (new state written / state removed / diagnostics added).
-/

/-- Terraform `types.String.ValueString()`: zero value on null. -/
def optValueString (s : Option String) : String := s.getD ""

/-- Terraform `types.Int64.ValueInt64()`: zero value on null. -/
def optValueInt64 (i : Option Int) : Int := i.getD 0

/-- An HTTP request as issued by the provider (method and URL path). -/
structure HTTPRequest where
  method : String
  url : String
deriving DecidableEq, Repr

/-- An HTTP response that arrived from the server. -/
structure HTTPResponse where
  statusCode : Nat
  body : String
deriving DecidableEq, Repr

/-- `APIError` from client.go: an error response from the CircleCI API. -/
structure APIError where
  Message : String
  Code : Nat
deriving DecidableEq, Repr

/-- `APIError.Error()` from client.go. -/
def APIError.errorString (e : APIError) : String :=
  if e.Code ≠ 0 then
    "CircleCI API error (code " ++ toString e.Code ++ "): " ++ e.Message
  else
    "CircleCI API error: " ++ e.Message

/-- `CircleCIClient.MakeRequest` from client.go, given the response the server
returned for the request (transport succeeded).  `decodeAPIError` models
`json.Unmarshal` of the body into `APIError`.  On status ≥ 400 the body is
decoded as a structured error, with a generic fallback embedding the raw
status and body; otherwise the response is returned unchanged. -/
def MakeRequest (decodeAPIError : String → Option APIError)
    (resp : HTTPResponse) : Except APIError HTTPResponse :=
  if resp.statusCode ≥ 400 then
    Except.error
      (match decodeAPIError resp.body with
       | some apiErr => apiErr
       | none =>
         { Message := "HTTP " ++ toString resp.statusCode ++ ": " ++ resp.body
           Code := resp.statusCode })
  else
    Except.ok resp

/-- Result of a convenience wrapper (`Get`/`Post`/`Put`) that decodes the
response body into a value: success, a typed API error from `MakeRequest`, or
a JSON decode failure (whose message is surfaced to the caller). -/
inductive ClientResult (α : Type) where
  | ok (val : α)
  | apiError (e : APIError)
  | decodeError (msg : String)
deriving DecidableEq, Repr

/-- `CircleCIClient.Get` from client.go (likewise `Post`/`Put` with a result
destination): `MakeRequest` followed by decoding the body into the result. -/
def clientGet {α : Type} (decodeAPIError : String → Option APIError)
    (decode : String → Except String α) (resp : HTTPResponse) : ClientResult α :=
  match MakeRequest decodeAPIError resp with
  | Except.error e => ClientResult.apiError e
  | Except.ok r =>
    match decode r.body with
    | Except.ok v => ClientResult.ok v
    | Except.error msg => ClientResult.decodeError msg

/-- `PaginatedResponse` from client.go; items are opaque (`[]interface{}`). -/
structure PaginatedResponse (Item : Type) where
  items : List Item
  next_page_token : String

/-- The `page-token` query parameter attached to a `GetAllPages` request:
absent when the current token is empty (in particular on the first request). -/
def pageTokenParam (nextPageToken : String) : Option String :=
  if nextPageToken = "" then none else some nextPageToken

/-- The loop body of `CircleCIClient.GetAllPages` from client.go, run against
the sequence of paginated responses the server produces, one per GET issued.
Returns the `page-token` parameter of every request issued together with the
accumulated items (`none` if the server ran out of responses, i.e. a `Get`
failed).  `nextPageToken` and `allItems` are the loop variables. -/
def GetAllPagesLoop {Item : Type} (nextPageToken : String) (allItems : List Item) :
    List (PaginatedResponse Item) → List (Option String) × Option (List Item)
  | [] => ([pageTokenParam nextPageToken], none)
  | response :: rest =>
    let allItems2 := allItems ++ response.items
    if response.next_page_token = "" then
      ([pageTokenParam nextPageToken], some allItems2)
    else
      let r := GetAllPagesLoop response.next_page_token allItems2 rest
      (pageTokenParam nextPageToken :: r.1, r.2)

/-- `CircleCIClient.GetAllPages` from client.go: the loop started with an empty
token and an empty accumulator. -/
def GetAllPages {Item : Type} (responses : List (PaginatedResponse Item)) :
    List (Option String) × Option (List Item) :=
  GetAllPagesLoop "" [] responses

/-- Outcome of a Read handler: state written back, resource removed from
state (`resp.State.RemoveResource`), or an error diagnostic (summary, detail)
added, in which case the prior state is left untouched by the framework. -/
inductive ReadResult (σ : Type) where
  | newState (s : σ)
  | removed
  | error (summary detail : String)
deriving DecidableEq, Repr

/-- Outcome of a Create/Update handler: state written back or an error
diagnostic added (no state written). -/
inductive WriteResult (σ : Type) where
  | newState (s : σ)
  | error (summary detail : String)
deriving DecidableEq, Repr

/-- Outcome of a Delete handler: the diagnostics it adds.  The framework
removes the resource from state iff `errors` is empty. -/
structure DeleteResult where
  warnings : List (String × String)
  errors : List (String × String)
deriving DecidableEq, Repr

/-- `Owner` from resource_context.go (CircleCI API shape). -/
structure Owner where
  id : String
  slug : String
  type : String
deriving DecidableEq, Repr

/-- `Context` from resource_context.go (CircleCI API shape). -/
structure Context where
  id : String
  name : String
  created_at : String
  owner : Owner
deriving DecidableEq, Repr

/-- `ContextOwner` from resource_context.go (Terraform attribute object). -/
structure ContextOwnerModel where
  id : Option String
  slug : Option String
  type : Option String
deriving DecidableEq, Repr

/-- `ContextResourceModel` from resource_context.go. -/
structure ContextResourceModel where
  id : Option String
  name : Option String
  owner : ContextOwnerModel
deriving DecidableEq, Repr

/-- `ContextResource.Read` from resource_context.go, given the result of the
client `Get` on `/context/{id}`: any client error (including a 404 turned
into an `APIError` by `MakeRequest`) becomes an error diagnostic; on success
`name` and `owner` are repopulated from the response. -/
def ContextResource.Read (data : ContextResourceModel)
    (getResult : ClientResult Context) : ReadResult ContextResourceModel :=
  match getResult with
  | ClientResult.apiError e =>
    ReadResult.error "Client Error" ("Unable to read context, got error: " ++ e.errorString)
  | ClientResult.decodeError msg =>
    ReadResult.error "Client Error" ("Unable to read context, got error: " ++ msg)
  | ClientResult.ok context =>
    ReadResult.newState
      { data with
        name := some context.name
        owner := ⟨some context.owner.id, some context.owner.slug, some context.owner.type⟩ }

/-- `CommitInfo` from resource_pipeline.go. -/
structure CommitInfo where
  subject : String
  body : String
deriving DecidableEq, Repr

/-- `VCSInfo` from resource_pipeline.go. -/
structure VCSInfo where
  provider_name : String
  target_repository_url : String
  branch : String
  review_id : String
  review_url : String
  revision : String
  tag : String
  commit : CommitInfo
deriving DecidableEq, Repr

/-- `Pipeline` from resource_pipeline.go (CircleCI API shape). -/
structure Pipeline where
  id : String
  number : Int
  project_slug : String
  state : String
  created_at : String
  updated_at : String
  vcs : VCSInfo
deriving DecidableEq, Repr

/-- `PipelineCommit` from resource_pipeline.go (Terraform attribute object). -/
structure PipelineCommitModel where
  subject : Option String
  body : Option String
deriving DecidableEq, Repr

/-- `PipelineVCS` from resource_pipeline.go (Terraform attribute object). -/
structure PipelineVCSModel where
  provider_name : Option String
  target_repository_url : Option String
  branch : Option String
  review_id : Option String
  review_url : Option String
  revision : Option String
  tag : Option String
  commit : PipelineCommitModel
deriving DecidableEq, Repr

/-- `PipelineResourceModel` from resource_pipeline.go. -/
structure PipelineResourceModel where
  id : Option String
  project_slug : Option String
  branch : Option String
  tag : Option String
  parameters : Option (List (String × String))
  number : Option Int
  state : Option String
  created_at : Option String
  updated_at : Option String
  vcs : Option PipelineVCSModel
deriving DecidableEq, Repr

/-- `PipelineResource.Read` from resource_pipeline.go, given the result of the
client `Get` on `/pipeline/{id}`: any client error becomes an error
diagnostic; on success `number`, `state`, `created_at`, `updated_at` are
repopulated. -/
def PipelineResource.Read (data : PipelineResourceModel)
    (getResult : ClientResult Pipeline) : ReadResult PipelineResourceModel :=
  match getResult with
  | ClientResult.apiError e =>
    ReadResult.error "Client Error" ("Unable to read pipeline, got error: " ++ e.errorString)
  | ClientResult.decodeError msg =>
    ReadResult.error "Client Error" ("Unable to read pipeline, got error: " ++ msg)
  | ClientResult.ok pipeline =>
    ReadResult.newState
      { data with
        number := some pipeline.number
        state := some pipeline.state
        created_at := some pipeline.created_at
        updated_at := some pipeline.updated_at }

/-- `EnvironmentVariable` from resource_environment_variable.go (CircleCI API
shape; the API never returns the value). -/
structure EnvironmentVariable where
  Variable : String
  Value : String
  CreatedAt : String
  UpdatedAt : String
deriving DecidableEq, Repr

/-- `EnvironmentVariableResourceModel` from resource_environment_variable.go. -/
structure EnvironmentVariableResourceModel where
  id : Option String
  context_id : Option String
  name : Option String
  value : Option String
deriving DecidableEq, Repr

/-- `EnvironmentVariableResource.Create` from resource_environment_variable.go,
given the result of the client `Put`: on success the state is the plan with
`id` set to `context_id:name`; the written `value` is carried over verbatim. -/
def EnvironmentVariableResource.Create (plan : EnvironmentVariableResourceModel)
    (putResult : ClientResult EnvironmentVariable) :
    WriteResult EnvironmentVariableResourceModel :=
  match putResult with
  | ClientResult.apiError e =>
    WriteResult.error "Client Error"
      ("Unable to create environment variable, got error: " ++ e.errorString)
  | ClientResult.decodeError msg =>
    WriteResult.error "Client Error"
      ("Unable to create environment variable, got error: " ++ msg)
  | ClientResult.ok _ =>
    WriteResult.newState
      { plan with
        id := some (optValueString plan.context_id ++ ":" ++ optValueString plan.name) }

/-- `EnvironmentVariableResource.Read` from resource_environment_variable.go:
any client error becomes an error diagnostic; on success only `name` is
repopulated from the response (the API does not return the value), all other
attributes keep their prior-state values. -/
def EnvironmentVariableResource.Read (data : EnvironmentVariableResourceModel)
    (getResult : ClientResult EnvironmentVariable) :
    ReadResult EnvironmentVariableResourceModel :=
  match getResult with
  | ClientResult.apiError e =>
    ReadResult.error "Client Error"
      ("Unable to read environment variable, got error: " ++ e.errorString)
  | ClientResult.decodeError msg =>
    ReadResult.error "Client Error"
      ("Unable to read environment variable, got error: " ++ msg)
  | ClientResult.ok envVar =>
    ReadResult.newState { data with name := some envVar.Variable }

/-- `RunnerTokenResourceModel` from resource_runner_token.go. -/
structure RunnerTokenResourceModel where
  id : Option String
  resource_class : Option String
  nickname : Option String
  token : Option String
  created_at : Option String
deriving DecidableEq, Repr

/-- The anonymous response struct decoded by `RunnerTokenResource.Read`
(the token is not returned by the read API). -/
structure RunnerTokenReadResponse where
  id : String
  resource_class : String
  nickname : String
  created_at : String
deriving DecidableEq, Repr

/-- `RunnerTokenResource.Read` from resource_runner_token.go, given the raw
HTTP response of the GET on `/runner/token/{id}` (this handler talks to the
HTTP client directly, not through `MakeRequest`): 404 removes the resource
from state; any other non-200 status is an error diagnostic; on success all
attributes except `token` are repopulated and `token` keeps its prior-state
value. -/
def RunnerTokenResource.Read (data : RunnerTokenResourceModel)
    (httpResp : HTTPResponse)
    (decode : String → Except String RunnerTokenReadResponse) :
    ReadResult RunnerTokenResourceModel :=
  if httpResp.statusCode = 404 then
    ReadResult.removed
  else if httpResp.statusCode ≠ 200 then
    ReadResult.error "Error reading runner token"
      ("API returned status " ++ toString httpResp.statusCode ++ " when reading runner token")
  else
    match decode httpResp.body with
    | Except.error msg =>
      ReadResult.error "Error parsing response"
        ("Unable to parse runner token response: " ++ msg)
    | Except.ok a =>
      ReadResult.newState
        { id := some a.id
          resource_class := some a.resource_class
          nickname := some a.nickname
          token := data.token
          created_at := some a.created_at }

/-- `JobAPI` from resource_job.go (CircleCI API shape). -/
structure JobAPI where
  id : String
  job_number : Int
  name : String
  project_slug : String
  status : String
  started_at : String
  stopped_at : String
  approval_id : String
  approval_type : String
deriving DecidableEq, Repr

/-- `JobResourceModel` from resource_job.go. -/
structure JobResourceModel where
  id : Option String
  job_number : Option Int
  name : Option String
  project_slug : Option String
  status : Option String
  started_at : Option String
  stopped_at : Option String
  approval_id : Option String
  approval_type : Option String
  action : Option String
deriving DecidableEq, Repr

/-- `JobResource.mapJobToModel` from resource_job.go. -/
def mapJobToModel (job : JobAPI) (data : JobResourceModel) : JobResourceModel :=
  { data with
    id := some job.id
    job_number := some job.job_number
    name := some job.name
    project_slug := some job.project_slug
    status := some job.status
    started_at := some job.started_at
    stopped_at := if job.stopped_at ≠ "" then some job.stopped_at else none
    approval_id := if job.approval_id ≠ "" then some job.approval_id else none
    approval_type := if job.approval_type ≠ "" then some job.approval_type else none }

/-- `JobResource.Read` from resource_job.go, given the raw HTTP response of
the GET on the job endpoint.  The GET goes through `MakeRequest`, which turns
any status ≥ 400 (404 included) into an error before the handler's own
not-found check can run; the explicit 404 branch below is therefore
unreachable. -/
def JobResource.Read (data : JobResourceModel)
    (decodeAPIError : String → Option APIError) (httpResp : HTTPResponse)
    (decodeJob : String → Except String JobAPI) : ReadResult JobResourceModel :=
  match MakeRequest decodeAPIError httpResp with
  | Except.error e => ReadResult.error "Failed to get job" e.errorString
  | Except.ok resp =>
    if resp.statusCode = 404 then
      ReadResult.removed
    else if resp.statusCode ≠ 200 then
      ReadResult.error "Failed to get job"
        ("CircleCI API returned status " ++ toString resp.statusCode)
    else
      match decodeJob resp.body with
      | Except.error msg => ReadResult.error "Failed to decode response" msg
      | Except.ok job => ReadResult.newState (mapJobToModel job data)

/-- Helper for `strings.SplitN(s, sep, 2)` (single-character separator) on the
character list: the part before the first separator, and, when a separator
occurs, the remainder after it. -/
def splitN2Chars (sep : Char) : List Char → List Char × Option (List Char)
  | [] => ([], none)
  | c :: cs =>
    if c = sep then ([], some cs)
    else
      let r := splitN2Chars sep cs
      (c :: r.1, r.2)

/-- `strings.SplitN(s, ":", 2)` from the Go standard library, as used by the
composite-key `ImportState` handlers: at most two parts, split at the first
colon; the second part keeps any further colons. -/
def splitN2 (s : String) : List String :=
  match splitN2Chars ':' s.data with
  | (pre, none) => [String.mk pre]
  | (pre, some rest) => [String.mk pre, String.mk rest]

/-- Digit accumulator for `strconv.ParseInt`: consumes decimal digits,
failing on any non-digit character. -/
def digitsVal : List Char → Nat → Option Nat
  | [], acc => some acc
  | c :: cs, acc =>
    if c.isDigit then digitsVal cs (acc * 10 + (c.toNat - Char.toNat '0')) else none

/-- `strconv.ParseInt(s, 10, 64)` from the Go standard library, as used by
`JobResource.ImportState`: optional sign, one or more decimal digits, result
within the int64 range. -/
def strconvParseInt64 (s : String) : Option Int :=
  match s.data with
  | [] => none
  | c :: cs =>
    let signAndDigits : Bool × List Char :=
      if c = '-' then (true, cs)
      else if c = '+' then (false, cs)
      else (false, c :: cs)
    match signAndDigits with
    | (_, []) => none
    | (neg, digits) =>
      match digitsVal digits 0 with
      | none => none
      | some n =>
        if neg then
          if n ≤ 2 ^ 63 then some (-(n : Int)) else none
        else
          if n ≤ 2 ^ 63 - 1 then some (n : Int) else none

/-- Go's `%q` verb as used in the import error messages (escaping of exotic
characters is not modelled; identifiers here are plain). -/
def goQuote (s : String) : String := "\"" ++ s ++ "\""

/-- Outcome of an ImportState handler: the attributes it set, or an error
diagnostic with no attribute set. -/
inductive ImportResult (α : Type) where
  | ok (attrs : α)
  | error (summary detail : String)
deriving DecidableEq, Repr

/-- The attributes set by `EnvironmentVariableResource.ImportState`. -/
structure EnvVarImportAttrs where
  context_id : String
  name : String
  id : String
deriving DecidableEq, Repr

/-- `EnvironmentVariableResource.ImportState` from
resource_environment_variable.go: split the identifier with
`strings.SplitN(id, ":", 2)`; reject unless exactly two parts result,
otherwise set `context_id`, `name` and `id`. -/
def EnvironmentVariableResource.ImportState (reqID : String) :
    ImportResult EnvVarImportAttrs :=
  match splitN2 reqID with
  | [p0, p1] => ImportResult.ok ⟨p0, p1, reqID⟩
  | _ =>
    ImportResult.error "Unexpected Import Identifier"
      ("Expected import identifier with format: context_id:variable_name. Got: "
        ++ goQuote reqID)

/-- The attributes set by `CheckoutKeyResource.ImportState`. -/
structure CheckoutKeyImportAttrs where
  project_slug : String
  fingerprint : String
  id : String
deriving DecidableEq, Repr

/-- `CheckoutKeyResource.ImportState` from resource_checkout_key.go: same
`SplitN(id, ":", 2)` pattern, setting `project_slug`, `fingerprint`, `id`. -/
def CheckoutKeyResource.ImportState (reqID : String) :
    ImportResult CheckoutKeyImportAttrs :=
  match splitN2 reqID with
  | [p0, p1] => ImportResult.ok ⟨p0, p1, reqID⟩
  | _ =>
    ImportResult.error "Unexpected Import Identifier"
      ("Expected import identifier with format: project_slug:fingerprint. Got: "
        ++ goQuote reqID)

/-- The attributes set by `JobResource.ImportState`. -/
structure JobImportAttrs where
  project_slug : String
  job_number : Int
  id : String
deriving DecidableEq, Repr

/-- `JobResource.ImportState` from resource_job.go: `SplitN(id, ":", 2)`,
reject unless two parts, then the second part must parse as a base-10 int64
job number; sets `project_slug`, `job_number`, `id`. -/
def JobResource.ImportState (reqID : String) : ImportResult JobImportAttrs :=
  match splitN2 reqID with
  | [projectSlug, jobNumberStr] =>
    match strconvParseInt64 jobNumberStr with
    | some jobNumber => ImportResult.ok ⟨projectSlug, jobNumber, reqID⟩
    | none =>
      ImportResult.error "Invalid job number"
        ("Job number must be a valid integer, got: " ++ goQuote jobNumberStr)
  | _ =>
    ImportResult.error "Invalid import ID"
      ("Import ID must be in format \x27project_slug:job_number\x27 (e.g., \x27gh/myorg/myrepo:123\x27), got: "
        ++ goQuote reqID)

/-- `JobResource.performJobAction` from resource_job.go, given the server's
response to whichever POST is issued.  Returns the requests issued and the
`error` result.  For `approve`, an empty `approvalID` is rejected before any
request is made. -/
def JobResource.performJobAction (server : HTTPRequest → HTTPResponse)
    (decodeAPIError : String → Option APIError)
    (projectSlug : String) (jobNumber : Int) (action approvalID : String) :
    List HTTPRequest × Except String Unit :=
  if action = "cancel" then
    let req : HTTPRequest :=
      ⟨"POST", "/v2/project/" ++ projectSlug ++ "/job/" ++ toString jobNumber ++ "/cancel"⟩
    match MakeRequest decodeAPIError (server req) with
    | Except.error e => ([req], Except.error e.errorString)
    | Except.ok resp =>
      if resp.statusCode ≠ 200 then
        ([req], Except.error ("failed to cancel job, status: " ++ toString resp.statusCode))
      else ([req], Except.ok ())
  else if action = "approve" then
    if approvalID = "" then
      ([], Except.error "approval_id is required for approve action")
    else
      let req : HTTPRequest :=
        ⟨"POST", "/v2/workflow/" ++ projectSlug ++ "/approve/" ++ approvalID⟩
      match MakeRequest decodeAPIError (server req) with
      | Except.error e => ([req], Except.error e.errorString)
      | Except.ok resp =>
        if resp.statusCode ≠ 200 then
          ([req], Except.error ("failed to approve job, status: " ++ toString resp.statusCode))
        else ([req], Except.ok ())
  else if action = "rerun" then
    let req : HTTPRequest :=
      ⟨"POST", "/v2/project/" ++ projectSlug ++ "/job/" ++ toString jobNumber ++ "/rerun"⟩
    match MakeRequest decodeAPIError (server req) with
    | Except.error e => ([req], Except.error e.errorString)
    | Except.ok resp =>
      if resp.statusCode ≠ 200 then
        ([req], Except.error ("failed to rerun job, status: " ++ toString resp.statusCode))
      else ([req], Except.ok ())
  else
    ([], Except.error
      ("unsupported action: " ++ action ++ ". Supported actions: cancel, approve, rerun"))

/-- `JobResource.Create` from resource_job.go: first a GET for the job
details is issued; only afterwards, if an `action` is set, is
`performJobAction` dispatched.  Returns the requests issued (in order) and
the outcome. -/
def JobResource.Create (server : HTTPRequest → HTTPResponse)
    (decodeAPIError : String → Option APIError)
    (decodeJob : String → Except String JobAPI) (plan : JobResourceModel) :
    List HTTPRequest × WriteResult JobResourceModel :=
  let projectSlug := optValueString plan.project_slug
  let jobNumber := optValueInt64 plan.job_number
  let getReq : HTTPRequest :=
    ⟨"GET", "/v2/project/" ++ projectSlug ++ "/job/" ++ toString jobNumber⟩
  match MakeRequest decodeAPIError (server getReq) with
  | Except.error e => ([getReq], WriteResult.error "Failed to get job" e.errorString)
  | Except.ok httpResp =>
    if httpResp.statusCode ≠ 200 then
      ([getReq], WriteResult.error "Failed to get job"
        ("CircleCI API returned status " ++ toString httpResp.statusCode))
    else
      match decodeJob httpResp.body with
      | Except.error msg => ([getReq], WriteResult.error "Failed to decode response" msg)
      | Except.ok job =>
        let action := optValueString plan.action
        if action ≠ "" then
          let r := JobResource.performJobAction server decodeAPIError projectSlug
            jobNumber action (optValueString plan.approval_id)
          match r.2 with
          | Except.error msg =>
            (getReq :: r.1, WriteResult.error "Failed to perform job action" msg)
          | Except.ok _ => (getReq :: r.1, WriteResult.newState (mapJobToModel job plan))
        else ([getReq], WriteResult.newState (mapJobToModel job plan))

/-- `JobResource.Update` from resource_job.go: if an `action` is set,
`performJobAction` is dispatched first (before any other request); on its
success the handler re-reads the job via `JobResource.Read` on the prior
state. -/
def JobResource.Update (server : HTTPRequest → HTTPResponse)
    (decodeAPIError : String → Option APIError)
    (decodeJob : String → Except String JobAPI)
    (plan state : JobResourceModel) :
    List HTTPRequest × ReadResult JobResourceModel :=
  let action := optValueString plan.action
  let readReq : HTTPRequest :=
    ⟨"GET", "/v2/project/" ++ optValueString state.project_slug ++ "/job/"
      ++ toString (optValueInt64 state.job_number)⟩
  if action ≠ "" then
    let r := JobResource.performJobAction server decodeAPIError
      (optValueString plan.project_slug) (optValueInt64 plan.job_number)
      action (optValueString plan.approval_id)
    match r.2 with
    | Except.error msg => (r.1, ReadResult.error "Failed to perform job action" msg)
    | Except.ok _ =>
      (r.1 ++ [readReq], JobResource.Read state decodeAPIError (server readReq) decodeJob)
  else
    ([readReq], JobResource.Read state decodeAPIError (server readReq) decodeJob)

/-- Upper-case hexadecimal digit, as in Go's net/url `upperhex` table. -/
def hexDigit (n : Nat) : Char :=
  if n < 10 then Char.ofNat (Char.toNat '0' + n)
  else Char.ofNat (Char.toNat 'A' + (n - 10))

/-- Go's `shouldEscape(c, encodePathSegment)` from net/url, negated:
alphanumerics, the unreserved marks and the sub-delimiters that are legal
inside a path segment are kept verbatim. -/
def pathSegmentKeep (c : Char) : Bool :=
  c.isAlphanum || c ∈ ['-', '_', '.', '~'] || c ∈ ['$', '&', '+', ':', '=', '@']

/-- `EscapeProjectSlug` from client.go (Go `url.PathEscape`), modelled at the
character level for ASCII slugs of the form `vcs/org/repo`. -/
def EscapeProjectSlug (slug : String) : String :=
  String.mk (slug.data.flatMap (fun c =>
    if pathSegmentKeep c then [c]
    else ['%', hexDigit (c.toNat / 16), hexDigit (c.toNat % 16)]))

/-- `TriggerPipelineRequest` from resource_pipeline.go (fields with
`omitempty` are the empty string / empty map when unset). -/
structure TriggerPipelineRequest where
  branch : String
  tag : String
  parameters : List (String × String)
deriving DecidableEq, Repr

/-- The `types.ObjectValueFrom` conversions in `PipelineResource.Create`:
every VCS field of the response becomes a known attribute value. -/
def vcsToModel (v : VCSInfo) : PipelineVCSModel :=
  ⟨some v.provider_name, some v.target_repository_url, some v.branch,
   some v.review_id, some v.review_url, some v.revision, some v.tag,
   ⟨some v.commit.subject, some v.commit.body⟩⟩

/-- `PipelineResource.Create` from resource_pipeline.go, given the result of
the client `Post` on the trigger endpoint.  The branch/tag validation runs
before any request: both null or both set is rejected with an error
diagnostic and no HTTP request; otherwise the trigger POST is issued and, on
success, the computed attributes are populated from the response. -/
def PipelineResource.Create
    (postResult : HTTPRequest → TriggerPipelineRequest → ClientResult Pipeline)
    (plan : PipelineResourceModel) :
    List HTTPRequest × WriteResult PipelineResourceModel :=
  if plan.branch = none ∧ plan.tag = none then
    ([], WriteResult.error "Missing Required Attribute"
      "Either \x27branch\x27 or \x27tag\x27 must be specified.")
  else if plan.branch ≠ none ∧ plan.tag ≠ none then
    ([], WriteResult.error "Conflicting Attributes"
      "Cannot specify both \x27branch\x27 and \x27tag\x27.")
  else
    let triggerReq : TriggerPipelineRequest :=
      { branch := optValueString plan.branch
        tag := optValueString plan.tag
        parameters := plan.parameters.getD [] }
    let req : HTTPRequest :=
      ⟨"POST", "/project/" ++ EscapeProjectSlug (optValueString plan.project_slug)
        ++ "/pipeline"⟩
    match postResult req triggerReq with
    | ClientResult.apiError e =>
      ([req], WriteResult.error "Client Error"
        ("Unable to trigger pipeline, got error: " ++ e.errorString))
    | ClientResult.decodeError msg =>
      ([req], WriteResult.error "Client Error"
        ("Unable to trigger pipeline, got error: " ++ msg))
    | ClientResult.ok pipeline =>
      ([req], WriteResult.newState
        { plan with
          id := some pipeline.id
          number := some pipeline.number
          state := some pipeline.state
          created_at := some pipeline.created_at
          updated_at := some pipeline.updated_at
          vcs := some (vcsToModel pipeline.vcs) })

/-- `CheckoutKeyResourceModel` from resource_checkout_key.go. -/
structure CheckoutKeyResourceModel where
  id : Option String
  project_slug : Option String
  type : Option String
  fingerprint : Option String
  public_key : Option String
  created_at : Option String
deriving DecidableEq, Repr

/-- `ContextResource.Update` from resource_context.go: after reading the plan
it unconditionally reports that contexts cannot be updated; no HTTP request,
no state write. -/
def ContextResource.Update (_plan : ContextResourceModel) :
    List HTTPRequest × WriteResult ContextResourceModel :=
  ([], WriteResult.error "Update Not Supported"
    "CircleCI contexts cannot be updated. Changes to name or owner require destroying and recreating the context.")

/-- `CheckoutKeyResource.Update` from resource_checkout_key.go:
unconditionally reports that checkout keys cannot be updated. -/
def CheckoutKeyResource.Update :
    List HTTPRequest × WriteResult CheckoutKeyResourceModel :=
  ([], WriteResult.error "Update Not Supported"
    "CircleCI checkout keys cannot be updated. Changes require destroying and recreating the key.")

/-- `RunnerTokenResource.Update` from resource_runner_token.go:
unconditionally reports that runner tokens are immutable. -/
def RunnerTokenResource.Update :
    List HTTPRequest × WriteResult RunnerTokenResourceModel :=
  ([], WriteResult.error "Runner token cannot be updated"
    "Runner tokens are immutable. Any changes require creating a new token.")

/-- `PipelineResource.Update` from resource_pipeline.go: unconditionally
reports that pipelines cannot be updated. -/
def PipelineResource.Update :
    List HTTPRequest × WriteResult PipelineResourceModel :=
  ([], WriteResult.error "Update Not Supported"
    "Pipelines cannot be updated once created. To trigger a new pipeline, create a new resource.")

/-- `PipelineResource.Delete` from resource_pipeline.go: a cancel POST is
issued only when the tracked `state` is `"running"`; a failing cancel is
downgraded to a warning; the handler never adds an error, so the framework
always completes the delete by dropping local tracking. -/
def PipelineResource.Delete (server : HTTPRequest → HTTPResponse)
    (decodeAPIError : String → Option APIError)
    (data : PipelineResourceModel) : List HTTPRequest × DeleteResult :=
  if optValueString data.state = "running" then
    let req : HTTPRequest := ⟨"POST", "/pipeline/" ++ optValueString data.id ++ "/cancel"⟩
    match MakeRequest decodeAPIError (server req) with
    | Except.error e =>
      ([req], ⟨[("Pipeline Cancel Failed",
        "Could not cancel running pipeline: " ++ e.errorString)], []⟩)
    | Except.ok _ => ([req], ⟨[], []⟩)
  else ([], ⟨[], []⟩)

/-- `RunnerTokenResource.Delete` from resource_runner_token.go, given the raw
HTTP response of the DELETE (this handler talks to the HTTP client directly):
any status other than 200 or 404 is an error diagnostic; 200 and 404 both
succeed, so deleting an already-deleted token is accepted. -/
def RunnerTokenResource.Delete (httpResp : HTTPResponse) : DeleteResult :=
  if httpResp.statusCode ≠ 200 ∧ httpResp.statusCode ≠ 404 then
    ⟨[], [("Error deleting runner token",
      "API returned status " ++ toString httpResp.statusCode ++ " when deleting runner token")]⟩
  else ⟨[], []⟩

lemma getAllPagesLoop_spec {Item : Type} (last : PaginatedResponse Item)
    (junk : List (PaginatedResponse Item)) (hlast : last.next_page_token = "") :
    ∀ (front : List (PaginatedResponse Item)),
      (∀ p ∈ front, p.next_page_token ≠ "") →
      ∀ (tok : String) (acc : List Item),
        GetAllPagesLoop tok acc (front ++ last :: junk) =
          (pageTokenParam tok :: front.map (fun p => some p.next_page_token),
           some (acc ++ ((front ++ [last]).map (fun p => p.items)).flatten)) := by
  intro front
  induction front with
  | nil =>
    intro _ tok acc
    simp [GetAllPagesLoop, hlast]
  | cons p front ih =>
    intro hfront tok acc
    have hp : p.next_page_token ≠ "" := hfront p (by simp)
    have hrest : ∀ q ∈ front, q.next_page_token ≠ "" := by
      intro q hq; exact hfront q (by simp [hq])
    simp only [List.cons_append, GetAllPagesLoop, if_neg hp, List.append_eq]
    rw [ih hrest p.next_page_token (acc ++ p.items)]
    simp [List.append_assoc, pageTokenParam, hp]

/-- C1: `GetAllPages` issues an initial GET without a `page-token` parameter,
then re-issues the GET with `page-token` set to the previous response's
`next_page_token`; it appends each response's items in the order received and
returns after the first response whose `next_page_token` is empty, yielding
exactly the concatenation of all consumed pages' items in server order with no
deduplication. -/
theorem getAllPages_pagination_spec {Item : Type}
    (front : List (PaginatedResponse Item)) (last : PaginatedResponse Item)
    (junk : List (PaginatedResponse Item))
    (hfront : ∀ p ∈ front, p.next_page_token ≠ "")
    (hlast : last.next_page_token = "") :
    GetAllPages (front ++ last :: junk) =
      (none :: front.map (fun p => some p.next_page_token),
       some (((front ++ [last]).map (fun p => p.items)).flatten)) := by
  unfold GetAllPages
  rw [getAllPagesLoop_spec last junk hlast front hfront "" []]
  simp [pageTokenParam]

/-- Witness for C1: three pages with tokens "a", "b", "" followed by a junk
page; all three pages' items are accumulated, the junk page is never
requested, and the requests carry the expected tokens. -/
theorem getAllPages_pagination_spec_witness :
    GetAllPages [⟨[1, 2], "a"⟩, ⟨[3], "b"⟩, ⟨([4, 5] : List Nat), ""⟩, ⟨[9], "z"⟩] =
      ([none, some "a", some "b"], some [1, 2, 3, 4, 5]) := by
  have h := getAllPages_pagination_spec
    [⟨[1, 2], "a"⟩, ⟨[3], "b"⟩] ⟨([4, 5] : List Nat), ""⟩ [⟨[9], "z"⟩]
    (by
      intro p hp
      simp only [List.mem_cons, List.not_mem_nil, or_false] at hp
      rcases hp with rfl | rfl <;> decide) rfl
  simpa using h

/-- C2: for every response with status ≥ 400, `MakeRequest` returns an error
and no response — the decoded `APIError` when the body decodes, otherwise a
generic error embedding the raw HTTP status and body text; for every response
with status < 400 it returns the response and no error. -/
theorem makeRequest_status_taxonomy (decodeAPIError : String → Option APIError)
    (resp : HTTPResponse) :
    (400 ≤ resp.statusCode →
      ((∃ a, decodeAPIError resp.body = some a ∧
          MakeRequest decodeAPIError resp = Except.error a) ∨
       (decodeAPIError resp.body = none ∧
          MakeRequest decodeAPIError resp = Except.error
            { Message := "HTTP " ++ toString resp.statusCode ++ ": " ++ resp.body
              Code := resp.statusCode }))) ∧
    (resp.statusCode < 400 → MakeRequest decodeAPIError resp = Except.ok resp) := by
  constructor
  · intro h
    cases hd : decodeAPIError resp.body with
    | some a => exact Or.inl ⟨a, rfl, by simp [MakeRequest, h, hd]⟩
    | none => exact Or.inr ⟨rfl, by simp [MakeRequest, h, hd]⟩
  · intro h
    simp [MakeRequest, Nat.not_le.mpr h]

/-- Witness for C2 at concrete inputs: a 404 with an undecodable body falls
back to the generic error; a 200 passes through. -/
theorem makeRequest_status_taxonomy_witness :
    MakeRequest (fun _ => none) ⟨404, "nf"⟩ =
        Except.error { Message := "HTTP 404: nf", Code := 404 } ∧
    MakeRequest (fun _ => none) ⟨200, "okbody"⟩ = Except.ok ⟨200, "okbody"⟩ := by
  constructor
  · have h := (makeRequest_status_taxonomy (fun _ => none) ⟨404, "nf"⟩).1 (by decide)
    rcases h with ⟨a, ha, _⟩ | ⟨_, h2⟩
    · exact absurd ha (by simp)
    · simpa using h2
  · exact (makeRequest_status_taxonomy (fun _ => none) ⟨200, "okbody"⟩).2 (by decide)

/-- C3 counterexample: at a concrete out-of-band-deleted id (the API returns
HTTP 404 with a decodable error body), `ContextResource.Read` adds an error
diagnostic instead of removing the resource from tracked state, refuting the
claim that every resource type's Read drops the resource on 404. -/
theorem contextRead_404_counterexample :
    ContextResource.Read
      ⟨some "ctx-1", some "shared-context", ⟨some "own", some "github", some "organization"⟩⟩
      (clientGet (fun _ => some ⟨"Context not found", 0⟩)
        (fun _ => Except.error "unexpected EOF") ⟨404, "{}"⟩) =
      ReadResult.error "Client Error"
        "Unable to read context, got error: CircleCI API error: Context not found" := by
  rfl

/-- C3 amended: on a 404 response only `RunnerTokenResource.Read` (which
inspects the raw response status) removes the resource from state;
`JobResource.Read` reports an error diagnostic because `MakeRequest` converts
the 404 into an `APIError` before the handler's not-found branch can run, and
`ContextResource.Read`, `PipelineResource.Read` and
`EnvironmentVariableResource.Read` report an error diagnostic as well. -/
theorem read_404_behaviour (body : String) (dAPI : String → Option APIError) :
    (∀ (data : RunnerTokenResourceModel)
        (dec : String → Except String RunnerTokenReadResponse),
       RunnerTokenResource.Read data ⟨404, body⟩ dec = ReadResult.removed) ∧
    (∀ (data : JobResourceModel) (decJob : String → Except String JobAPI),
       ∃ detail, JobResource.Read data dAPI ⟨404, body⟩ decJob =
         ReadResult.error "Failed to get job" detail) ∧
    (∀ (data : ContextResourceModel) (dec : String → Except String Context),
       ∃ detail, ContextResource.Read data (clientGet dAPI dec ⟨404, body⟩) =
         ReadResult.error "Client Error" detail) ∧
    (∀ (data : PipelineResourceModel) (dec : String → Except String Pipeline),
       ∃ detail, PipelineResource.Read data (clientGet dAPI dec ⟨404, body⟩) =
         ReadResult.error "Client Error" detail) ∧
    (∀ (data : EnvironmentVariableResourceModel)
        (dec : String → Except String EnvironmentVariable),
       ∃ detail, EnvironmentVariableResource.Read data (clientGet dAPI dec ⟨404, body⟩) =
         ReadResult.error "Client Error" detail) := by
  have hmk : ∀ (r : HTTPResponse), r.statusCode = 404 →
      ∃ e, MakeRequest dAPI r = Except.error e := by
    intro r hr
    unfold MakeRequest
    rw [if_pos (show r.statusCode ≥ 400 by omega)]
    exact ⟨_, rfl⟩
  obtain ⟨e, he⟩ := hmk ⟨404, body⟩ rfl
  refine ⟨?_, ?_, ?_, ?_, ?_⟩
  · intro data dec
    unfold RunnerTokenResource.Read
    simp
  · intro data decJob
    unfold JobResource.Read
    rw [he]
    exact ⟨_, rfl⟩
  · intro data dec
    unfold ContextResource.Read clientGet
    rw [he]
    exact ⟨_, rfl⟩
  · intro data dec
    unfold PipelineResource.Read clientGet
    rw [he]
    exact ⟨_, rfl⟩
  · intro data dec
    unfold EnvironmentVariableResource.Read clientGet
    rw [he]
    exact ⟨_, rfl⟩

lemma splitN2Chars_no_sep (sep : Char) :
    ∀ l : List Char, sep ∉ l → splitN2Chars sep l = (l, none) := by
  intro l
  induction l with
  | nil => intro _; rfl
  | cons c cs ih =>
    intro h
    have hc : c ≠ sep := fun hcs => h (hcs ▸ List.mem_cons_self c cs)
    have hcs : sep ∉ cs := fun hm => h (List.mem_cons_of_mem c hm)
    simp [splitN2Chars, hc, ih hcs]

lemma splitN2Chars_first (sep : Char) (l₂ : List Char) :
    ∀ l₁ : List Char, sep ∉ l₁ →
      splitN2Chars sep (l₁ ++ sep :: l₂) = (l₁, some l₂) := by
  intro l₁
  induction l₁ with
  | nil => intro _; simp [splitN2Chars]
  | cons c cs ih =>
    intro h
    have hc : c ≠ sep := fun hcs => h (hcs ▸ List.mem_cons_self c cs)
    have hcs : sep ∉ cs := fun hm => h (List.mem_cons_of_mem c hm)
    simp [splitN2Chars, hc, ih hcs]

lemma splitN2_no_colon (s : String) (h : ':' ∉ s.data) : splitN2 s = [s] := by
  unfold splitN2
  rw [splitN2Chars_no_sep ':' s.data h]

lemma splitN2_split (s₁ s₂ : String) (h : ':' ∉ s₁.data) :
    splitN2 (s₁ ++ ":" ++ s₂) = [s₁, s₂] := by
  unfold splitN2
  have hd : (s₁ ++ ":" ++ s₂).data = s₁.data ++ ':' :: s₂.data := by
    show (s₁.data ++ [':']) ++ s₂.data = s₁.data ++ ':' :: s₂.data
    simp
  rw [hd, splitN2Chars_first ':' s₂.data s₁.data h]

/-- C4 counterexample: the identifier `"a:b:c"` has three colon-delimited
segments, yet `EnvironmentVariableResource.ImportState` accepts it (splitting
at the first colon only) instead of rejecting it, refuting the claim that any
segment count other than two is rejected. -/
theorem envVarImport_three_segments_counterexample :
    EnvironmentVariableResource.ImportState "a:b:c" =
      ImportResult.ok ⟨"a", "b:c", "a:b:c"⟩ := by
  decide

/-- C4 amended: an identifier with no colon is rejected with an error
diagnostic (and no attribute set) by all three composite-key imports; an
identifier containing a colon is split at the first colon only:
EnvironmentVariable and CheckoutKey then populate exactly their two
attributes plus `id`, accepting a second part that itself contains colons,
while Job additionally requires the second part to parse as a base-10 int64
and rejects it otherwise (which is what rejects multi-segment Job ids). -/
theorem import_split_at_first_colon :
    (∀ s : String, ':' ∉ s.data →
       (∃ u v, EnvironmentVariableResource.ImportState s = ImportResult.error u v) ∧
       (∃ u v, CheckoutKeyResource.ImportState s = ImportResult.error u v) ∧
       (∃ u v, JobResource.ImportState s = ImportResult.error u v)) ∧
    (∀ s₁ s₂ : String, ':' ∉ s₁.data →
       EnvironmentVariableResource.ImportState (s₁ ++ ":" ++ s₂) =
         ImportResult.ok ⟨s₁, s₂, s₁ ++ ":" ++ s₂⟩ ∧
       CheckoutKeyResource.ImportState (s₁ ++ ":" ++ s₂) =
         ImportResult.ok ⟨s₁, s₂, s₁ ++ ":" ++ s₂⟩ ∧
       (∀ n, strconvParseInt64 s₂ = some n →
          JobResource.ImportState (s₁ ++ ":" ++ s₂) =
            ImportResult.ok ⟨s₁, n, s₁ ++ ":" ++ s₂⟩) ∧
       (strconvParseInt64 s₂ = none →
          ∃ u v, JobResource.ImportState (s₁ ++ ":" ++ s₂) =
            ImportResult.error u v)) := by
  constructor
  · intro s h
    have he := splitN2_no_colon s h
    refine ⟨?_, ?_, ?_⟩
    · unfold EnvironmentVariableResource.ImportState
      rw [he]
      exact ⟨_, _, rfl⟩
    · unfold CheckoutKeyResource.ImportState
      rw [he]
      exact ⟨_, _, rfl⟩
    · unfold JobResource.ImportState
      rw [he]
      exact ⟨_, _, rfl⟩
  · intro s₁ s₂ h
    have he := splitN2_split s₁ s₂ h
    refine ⟨?_, ?_, ?_, ?_⟩
    · unfold EnvironmentVariableResource.ImportState
      rw [he]
    · unfold CheckoutKeyResource.ImportState
      rw [he]
    · intro n hn
      unfold JobResource.ImportState
      rw [he]
      simp [hn]
    · intro hn
      unfold JobResource.ImportState
      rw [he]
      simp [hn]

/-- Witness for C4 (amended): concrete two-segment identifiers are accepted
with exactly the expected attributes, and a colon-free identifier is rejected
by the Job import. -/
theorem import_split_at_first_colon_witness :
    EnvironmentVariableResource.ImportState ("ctx-1" ++ ":" ++ "MY_VAR") =
      ImportResult.ok ⟨"ctx-1", "MY_VAR", "ctx-1" ++ ":" ++ "MY_VAR"⟩ ∧
    JobResource.ImportState ("gh/myorg/myrepo" ++ ":" ++ "123") =
      ImportResult.ok ⟨"gh/myorg/myrepo", 123, "gh/myorg/myrepo" ++ ":" ++ "123"⟩ ∧
    (∃ u v, JobResource.ImportState "justanid" = ImportResult.error u v) := by
  refine ⟨(import_split_at_first_colon.2 "ctx-1" "MY_VAR" (by decide)).1,
    (import_split_at_first_colon.2 "gh/myorg/myrepo" "123" (by decide)).2.2.1 123 (by decide),
    (import_split_at_first_colon.1 "justanid" (by decide)).2.2⟩

lemma performJobAction_approve_empty (server : HTTPRequest → HTTPResponse)
    (decodeAPIError : String → Option APIError) (projectSlug : String)
    (jobNumber : Int) :
    JobResource.performJobAction server decodeAPIError projectSlug jobNumber
      "approve" "" = ([], Except.error "approval_id is required for approve action") := by
  rfl

/-- C5 counterexample: at a concrete plan with `action = "approve"` and no
`approval_id`, `JobResource.Create` issues the job-details GET before the
precondition failure is reported — the error is not reported "before any
HTTP call is attempted". -/
theorem jobCreate_approve_counterexample :
    JobResource.Create (fun _ => ⟨200, "jobbody"⟩) (fun _ => none)
      (fun _ => Except.ok ⟨"j1", 123, "build", "gh/org/repo", "on_hold", "t0", "", "", ""⟩)
      ⟨none, some 123, none, some "gh/org/repo", none, none, none, none, none, some "approve"⟩ =
      ([⟨"GET", "/v2/project/gh/org/repo/job/123"⟩],
       WriteResult.error "Failed to perform job action"
         "approval_id is required for approve action") := by
  decide

/-- C5 amended: with `action = "approve"` and an absent/empty `approval_id`,
`JobResource.Update` fails the precondition before any HTTP call (it issues
no request at all), while `JobResource.Create` first issues the job-details
GET and reports an error diagnostic afterwards, without ever attempting an
action POST (every request it issued is a GET). -/
theorem job_approve_requires_approval_id
    (server : HTTPRequest → HTTPResponse)
    (decodeAPIError : String → Option APIError)
    (decodeJob : String → Except String JobAPI) :
    (∀ plan state : JobResourceModel,
       optValueString plan.action = "approve" →
       optValueString plan.approval_id = "" →
       JobResource.Update server decodeAPIError decodeJob plan state =
         ([], ReadResult.error "Failed to perform job action"
           "approval_id is required for approve action")) ∧
    (∀ plan : JobResourceModel,
       optValueString plan.action = "approve" →
       optValueString plan.approval_id = "" →
       (∃ u v, (JobResource.Create server decodeAPIError decodeJob plan).2 =
          WriteResult.error u v) ∧
       ∀ r ∈ (JobResource.Create server decodeAPIError decodeJob plan).1,
         r.method = "GET") := by
  constructor
  · intro plan state hact hap
    unfold JobResource.Update
    rw [hact, hap]
    simp [performJobAction_approve_empty]
  · intro plan hact hap
    unfold JobResource.Create
    rw [hact, hap]
    simp only [performJobAction_approve_empty]
    rcases hM : MakeRequest decodeAPIError
        (server ⟨"GET", "/v2/project/" ++ optValueString plan.project_slug
          ++ "/job/" ++ toString (optValueInt64 plan.job_number)⟩) with e | httpResp <;>
      simp only [hM]
    · exact ⟨⟨_, _, rfl⟩, by intro r hr; simp at hr; rw [hr]⟩
    · by_cases hs : httpResp.statusCode ≠ 200
      · rw [if_pos hs]
        exact ⟨⟨_, _, rfl⟩, by intro r hr; simp at hr; rw [hr]⟩
      · rw [if_neg hs]
        rcases hJ : decodeJob httpResp.body with msg | job <;> simp only [hJ]
        · exact ⟨⟨_, _, rfl⟩, by intro r hr; simp at hr; rw [hr]⟩
        · rw [if_pos (show ("approve" : String) ≠ "" by decide)]
          exact ⟨⟨_, _, rfl⟩, by intro r hr; simp at hr; rw [hr]⟩

/-- Witness for C5 (amended) at concrete inputs: Update with a missing
approval id issues no request and errors; Create issues only the GET and
errors. -/
theorem job_approve_requires_approval_id_witness :
    JobResource.Update (fun _ => ⟨200, "jobbody"⟩) (fun _ => none)
      (fun _ => Except.error "eof")
      ⟨none, some 1, none, some "gh/o/r", none, none, none, none, none, some "approve"⟩
      ⟨none, some 1, none, some "gh/o/r", none, none, none, none, none, none⟩ =
      ([], ReadResult.error "Failed to perform job action"
        "approval_id is required for approve action") ∧
    (∃ u v,
      (JobResource.Create (fun _ => ⟨200, "jobbody"⟩) (fun _ => none)
        (fun _ => Except.error "eof")
        ⟨none, some 1, none, some "gh/o/r", none, none, none, none, none,
          some "approve"⟩).2 = WriteResult.error u v) := by
  constructor
  · exact (job_approve_requires_approval_id _ _ _).1 _ _ (by decide) (by decide)
  · exact ((job_approve_requires_approval_id _ _ _).2 _ (by decide) (by decide)).1

/-- C6: Pipeline Create adds an error diagnostic and issues no HTTP request
when `branch` and `tag` are both null and likewise when both are set; the
trigger POST is issued exactly when one of them is non-null. -/
theorem pipelineCreate_branch_xor_tag
    (postResult : HTTPRequest → TriggerPipelineRequest → ClientResult Pipeline)
    (plan : PipelineResourceModel) :
    (plan.branch = none ∧ plan.tag = none →
       PipelineResource.Create postResult plan =
         ([], WriteResult.error "Missing Required Attribute"
           "Either \x27branch\x27 or \x27tag\x27 must be specified.")) ∧
    (plan.branch ≠ none ∧ plan.tag ≠ none →
       PipelineResource.Create postResult plan =
         ([], WriteResult.error "Conflicting Attributes"
           "Cannot specify both \x27branch\x27 and \x27tag\x27.")) ∧
    ((plan.branch = none ↔ plan.tag ≠ none) →
       (PipelineResource.Create postResult plan).1 =
         [⟨"POST", "/project/" ++ EscapeProjectSlug (optValueString plan.project_slug)
           ++ "/pipeline"⟩]) := by
  refine ⟨?_, ?_, ?_⟩
  · intro h
    unfold PipelineResource.Create
    rw [if_pos h]
  · intro h
    unfold PipelineResource.Create
    rw [if_neg (fun hc => h.1 hc.1), if_pos h]
  · intro h
    have h1 : ¬(plan.branch = none ∧ plan.tag = none) := fun hc => (h.mp hc.1) hc.2
    have h2 : ¬(plan.branch ≠ none ∧ plan.tag ≠ none) := fun hc => hc.1 (h.mpr hc.2)
    unfold PipelineResource.Create
    rw [if_neg h1, if_neg h2]
    rcases hpr : postResult
        ⟨"POST", "/project/" ++ EscapeProjectSlug (optValueString plan.project_slug)
          ++ "/pipeline"⟩
        ⟨optValueString plan.branch, optValueString plan.tag, plan.parameters.getD []⟩
      with p | e | m <;> simp only [hpr]

/-- Witness for C6 at concrete inputs: neither branch nor tag set is rejected
with no request; branch alone set reaches the trigger POST. -/
theorem pipelineCreate_branch_xor_tag_witness :
    PipelineResource.Create (fun _ _ => ClientResult.decodeError "eof")
      ⟨none, some "gh/org/repo", none, none, none, none, none, none, none, none⟩ =
      ([], WriteResult.error "Missing Required Attribute"
        "Either \x27branch\x27 or \x27tag\x27 must be specified.") ∧
    (PipelineResource.Create (fun _ _ => ClientResult.decodeError "eof")
      ⟨none, some "gh/org/repo", some "main", none, none, none, none, none, none,
        none⟩).1 = [⟨"POST", "/project/gh%2Forg%2Frepo/pipeline"⟩] := by
  constructor
  · exact (pipelineCreate_branch_xor_tag _ _).1 ⟨rfl, rfl⟩
  · have h := (pipelineCreate_branch_xor_tag (fun _ _ => ClientResult.decodeError "eof")
      ⟨none, some "gh/org/repo", some "main", none, none, none, none, none, none,
        none⟩).2.2 (by simp)
    rw [h]
    decide

/-- C7: EnvironmentVariable Read never overwrites `value` (nor `context_id`
nor `id`): a new state is only written on a successful response, and then
only `name` is repopulated from it; and Create carries the planned `value`
into the state it writes, so a Create followed by Read preserves the
originally written value. -/
theorem envVarRead_never_overwrites_value :
    (∀ (data : EnvironmentVariableResourceModel)
        (res : ClientResult EnvironmentVariable)
        (d' : EnvironmentVariableResourceModel),
       EnvironmentVariableResource.Read data res = ReadResult.newState d' →
       d'.value = data.value ∧ d'.context_id = data.context_id ∧ d'.id = data.id ∧
       ∃ v, res = ClientResult.ok v ∧ d'.name = some v.Variable) ∧
    (∀ (plan : EnvironmentVariableResourceModel)
        (putRes : ClientResult EnvironmentVariable)
        (created : EnvironmentVariableResourceModel),
       EnvironmentVariableResource.Create plan putRes = WriteResult.newState created →
       created.value = plan.value) := by
  constructor
  · intro data res d' hread
    cases res with
    | ok v =>
      injection hread with h
      subst h
      exact ⟨rfl, rfl, rfl, v, rfl, rfl⟩
    | apiError e => exact (ReadResult.noConfusion hread)
    | decodeError m => exact (ReadResult.noConfusion hread)
  · intro plan putRes created hcreate
    cases putRes with
    | ok v =>
      injection hcreate with h
      subst h
      rfl
    | apiError e => exact (WriteResult.noConfusion hcreate)
    | decodeError m => exact (WriteResult.noConfusion hcreate)

/-- Witness for C7 at a concrete input: a Read whose response renames the
variable still leaves `value` at its prior-state value. -/
theorem envVarRead_never_overwrites_value_witness :
    (⟨some "c:V", some "c", some "W", some "secret"⟩ :
        EnvironmentVariableResourceModel).value =
      (⟨some "c:V", some "c", some "V", some "secret"⟩ :
        EnvironmentVariableResourceModel).value :=
  (envVarRead_never_overwrites_value.1
    ⟨some "c:V", some "c", some "V", some "secret"⟩
    (ClientResult.ok ⟨"W", "", "", ""⟩)
    ⟨some "c:V", some "c", some "W", some "secret"⟩ rfl).1

/-- C8: for the wholly immutable resources Context, CheckoutKey, RunnerToken
and Pipeline, every Update invocation adds a hard error diagnostic explaining
that changes require recreation, issues no HTTP request, and writes no
state. -/
theorem immutable_resources_update_errors (ctxPlan : ContextResourceModel) :
    ContextResource.Update ctxPlan =
      ([], WriteResult.error "Update Not Supported"
        "CircleCI contexts cannot be updated. Changes to name or owner require destroying and recreating the context.") ∧
    CheckoutKeyResource.Update =
      ([], WriteResult.error "Update Not Supported"
        "CircleCI checkout keys cannot be updated. Changes require destroying and recreating the key.") ∧
    RunnerTokenResource.Update =
      ([], WriteResult.error "Runner token cannot be updated"
        "Runner tokens are immutable. Any changes require creating a new token.") ∧
    PipelineResource.Update =
      ([], WriteResult.error "Update Not Supported"
        "Pipelines cannot be updated once created. To trigger a new pipeline, create a new resource.") :=
  ⟨rfl, rfl, rfl, rfl⟩

/-- C9: Pipeline Delete issues the cancel POST iff the tracked `state` equals
`"running"`; it never adds an error diagnostic (so the delete always
completes and only local tracking is removed), and a failing cancel is
reported as a warning. -/
theorem pipelineDelete_cancel_if_running (server : HTTPRequest → HTTPResponse)
    (decodeAPIError : String → Option APIError) (data : PipelineResourceModel) :
    (optValueString data.state = "running" →
       (PipelineResource.Delete server decodeAPIError data).1 =
         [⟨"POST", "/pipeline/" ++ optValueString data.id ++ "/cancel"⟩]) ∧
    (optValueString data.state ≠ "running" →
       (PipelineResource.Delete server decodeAPIError data).1 = []) ∧
    (PipelineResource.Delete server decodeAPIError data).2.errors = [] ∧
    (∀ e, optValueString data.state = "running" →
       MakeRequest decodeAPIError
         (server ⟨"POST", "/pipeline/" ++ optValueString data.id ++ "/cancel"⟩) =
         Except.error e →
       (PipelineResource.Delete server decodeAPIError data).2.warnings =
         [("Pipeline Cancel Failed",
           "Could not cancel running pipeline: " ++ e.errorString)]) := by
  refine ⟨?_, ?_, ?_, ?_⟩
  · intro h
    unfold PipelineResource.Delete
    rw [if_pos h]
    rcases hM : MakeRequest decodeAPIError
        (server ⟨"POST", "/pipeline/" ++ optValueString data.id ++ "/cancel"⟩)
      with e | r <;> simp only [hM]
  · intro h
    unfold PipelineResource.Delete
    rw [if_neg h]
  · unfold PipelineResource.Delete
    by_cases h : optValueString data.state = "running"
    · rw [if_pos h]
      rcases hM : MakeRequest decodeAPIError
          (server ⟨"POST", "/pipeline/" ++ optValueString data.id ++ "/cancel"⟩)
        with e | r <;> simp only [hM]
    · rw [if_neg h]
  · intro e h hM
    unfold PipelineResource.Delete
    rw [if_pos h]
    simp only [hM]

/-- Witness for C9 at concrete inputs: a running pipeline whose cancel call
404s still deletes with just a warning; a non-running one issues nothing. -/
theorem pipelineDelete_cancel_if_running_witness :
    (PipelineResource.Delete (fun _ => ⟨404, "nf"⟩) (fun _ => none)
      ⟨some "p1", none, none, none, none, none, some "running", none, none,
        none⟩).1 = [⟨"POST", "/pipeline/p1/cancel"⟩] ∧
    (PipelineResource.Delete (fun _ => ⟨404, "nf"⟩) (fun _ => none)
      ⟨some "p1", none, none, none, none, none, some "running", none, none,
        none⟩).2.warnings =
      [("Pipeline Cancel Failed",
        "Could not cancel running pipeline: CircleCI API error (code 404): HTTP 404: nf")] ∧
    (PipelineResource.Delete (fun _ => ⟨404, "nf"⟩) (fun _ => none)
      ⟨some "p2", none, none, none, none, none, some "errored", none, none,
        none⟩).1 = [] := by
  refine ⟨?_, ?_, ?_⟩
  · exact (pipelineDelete_cancel_if_running _ _ _).1 rfl
  · exact (pipelineDelete_cancel_if_running _ _ _).2.2.2
      ⟨"HTTP 404: nf", 404⟩ rfl rfl
  · exact (pipelineDelete_cancel_if_running _ _ _).2.1 (by decide)

/-- C10: RunnerToken Delete succeeds (adds no error diagnostic) exactly on
HTTP 200 and HTTP 404, so deleting an already-deleted token is accepted and
delete is idempotent at the public interface; any other non-2xx status
yields an error diagnostic. -/
theorem runnerTokenDelete_status_spec (status : Nat) (body : String) :
    (status = 200 ∨ status = 404 →
       RunnerTokenResource.Delete ⟨status, body⟩ = ⟨[], []⟩) ∧
    (status ≠ 200 → status ≠ 404 → ¬(200 ≤ status ∧ status < 300) →
       RunnerTokenResource.Delete ⟨status, body⟩ =
         ⟨[], [("Error deleting runner token",
           "API returned status " ++ toString status ++ " when deleting runner token")]⟩) := by
  constructor
  · intro h
    unfold RunnerTokenResource.Delete
    rcases h with rfl | rfl <;> simp
  · intro h1 h2 _
    unfold RunnerTokenResource.Delete
    rw [if_pos ⟨h1, h2⟩]

/-- Witness for C10 at concrete inputs: 404 deletes cleanly, 500 errors. -/
theorem runnerTokenDelete_status_spec_witness :
    RunnerTokenResource.Delete ⟨404, ""⟩ = ⟨[], []⟩ ∧
    RunnerTokenResource.Delete ⟨500, "oops"⟩ =
      ⟨[], [("Error deleting runner token",
        "API returned status 500 when deleting runner token")]⟩ :=
  ⟨(runnerTokenDelete_status_spec 404 "").1 (Or.inr rfl),
   (runnerTokenDelete_status_spec 500 "oops").2 (by decide) (by decide) (by decide)⟩
